import Mathlib

/-!
Formal model of `seqan_align.cpp` (Unicycler's semi-global aligner glue code).

The C++ file contains a pipeline: k-mer extraction (`getSeqKmers`), shared
k-mer discovery (`getCommonLocations`), SeqAn seed chaining and banded
alignment (external library calls), then a single pass over the aligned
string pair building a CIGAR string and statistics (`semiGlobalAlign`,
`getCigarType`, `getCigarPart`).

The SeqAn library calls (`chainSeedsGlobally`, `bandedChainAlignment`) are
third-party code, not part of this repository, so the model takes their
outputs — the seed chain and the two aligned strings — as parameters.
Everything else is translated directly from the source.

Machine `int` values are modelled as `Int` (no overflow is in scope for any
claim) and `double` arithmetic as exact rational arithmetic on `ℚ`; the one
place where IEEE semantics matter (division by a zero `alignedLength`) is
modelled by `Option ℚ`, with `none` standing for the NaN produced by `0.0/0.0`.
-/

namespace SeqanAlign

/-- The `enum CigarType {MATCH, INSERTION, DELETION, CLIP, NOTHING}` of the
C++ source. -/
inductive CigarType where
  | MATCH
  | INSERTION
  | DELETION
  | CLIP
  | NOTHING
deriving DecidableEq, Repr

open CigarType

/-- Model of `getCigarType(char b1, char b2, bool alignmentStarted)`:
classifies one alignment column. -/
def getCigarType (b1 b2 : Char) (alignmentStarted : Bool) : CigarType :=
  if b1 = '-' then
    if alignmentStarted then DELETION else NOTHING
  else if b2 = '-' then
    if alignmentStarted then INSERTION else CLIP
  else MATCH

/-- Model of `getCigarPart(CigarType type, int length)`.  Note the C++ code
first sets `cigarPart` to the operation letter and then runs
`cigarPart.append(std::to_string(length))`, so the letter precedes the
decimal length.  A `NOTHING` run renders as the empty string. -/
def getCigarPart (t : CigarType) (len : Int) : String :=
  match t with
  | DELETION => "D" ++ toString len
  | INSERTION => "I" ++ toString len
  | CLIP => "S" ++ toString len
  | MATCH => "M" ++ toString len
  | NOTHING => ""

/-- The mutable locals of the CIGAR-building loop of `semiGlobalAlign`
(lines 122-134 of the source), threaded as explicit state.  `cigarRuns` is
instrumentation: it records exactly the (type, length) pairs whose
`getCigarPart` renderings the code appends to `cigarString` (a `NOTHING`
flush renders to `""` and records nothing); it lets run-level properties of
the CIGAR string be stated. -/
structure LoopState where
  cigarString : String
  cigarRuns : List (CigarType × Int)
  currentCigarType : CigarType
  currentCigarLength : Int
  matchCount : Int
  mismatchCount : Int
  insertionCount : Int
  deletionCount : Int
  s2MismatchPositions : List Int
  s2InsertionPositions : List Int
  s2DeletionPositions : List Int
  s1Start : Int
  s2Start : Int
  s1Bases : Int
  s2Bases : Int
  alignmentStarted : Bool
deriving DecidableEq, Repr

/-- The loop-state as initialised before the loop (lines 122-134).  The C++
`currentCigarType` is uninitialised there; it is set on the first iteration
before any read, and the loop body is only reached when at least one column
exists, so `NOTHING` here is an arbitrary placeholder. -/
def initState : LoopState :=
  { cigarString := ""
    cigarRuns := []
    currentCigarType := NOTHING
    currentCigarLength := 0
    matchCount := 0
    mismatchCount := 0
    insertionCount := 0
    deletionCount := 0
    s2MismatchPositions := []
    s2InsertionPositions := []
    s2DeletionPositions := []
    s1Start := -1
    s2Start := -1
    s1Bases := 0
    s2Bases := 0
    alignmentStarted := false }

/-- Record a flushed run in the instrumentation list; a `NOTHING` run renders
to the empty string, so nothing is recorded for it. -/
def pushRun (rs : List (CigarType × Int)) (t : CigarType) (len : Int) :
    List (CigarType × Int) :=
  if t = NOTHING then rs else rs ++ [(t, len)]

/-- One iteration of the CIGAR-building loop (source lines 135-185), for the
column `(base1, base2)`.  `first` is true exactly for `i == 0`, where the C++
code runs `currentCigarType = cigarType;` before the run-length comparison. -/
def stepColumn (first : Bool) (st : LoopState) (base1 base2 : Char) : LoopState :=
  let st :=
    if base1 ≠ '-' ∧ base2 ≠ '-' ∧ st.alignmentStarted = false then
      { st with s1Start := st.s1Bases, s2Start := st.s2Bases, alignmentStarted := true }
    else st
  let cigarType := getCigarType base1 base2 st.alignmentStarted
  let st := if first then { st with currentCigarType := cigarType } else st
  let st :=
    if cigarType = MATCH then
      if base1 = base2 then { st with matchCount := st.matchCount + 1 }
      else
        { st with mismatchCount := st.mismatchCount + 1,
                  s2MismatchPositions := st.s2MismatchPositions ++ [st.s2Bases] }
    else if cigarType = DELETION then
      { st with deletionCount := st.deletionCount + 1,
                s2DeletionPositions := st.s2DeletionPositions ++ [st.s2Bases] }
    else if cigarType = INSERTION then
      { st with insertionCount := st.insertionCount + 1,
                s2InsertionPositions := st.s2InsertionPositions ++ [st.s2Bases] }
    else st
  let st :=
    if cigarType = st.currentCigarType then
      { st with currentCigarLength := st.currentCigarLength + 1 }
    else
      { st with
          cigarString := st.cigarString ++ getCigarPart st.currentCigarType st.currentCigarLength,
          cigarRuns := pushRun st.cigarRuns st.currentCigarType st.currentCigarLength,
          currentCigarType := cigarType,
          currentCigarLength := 1 }
  let st := if base1 ≠ '-' then { st with s1Bases := st.s1Bases + 1 } else st
  if base2 ≠ '-' then { st with s2Bases := st.s2Bases + 1 } else st

/-- Model of `std::string::operator[]` on the alignment strings; index `i == size()`
yields the null character (the C++ loop bound is the max of the two sizes,
so on same-length inputs the index is always in range). -/
def charAt (s : String) (i : Nat) : Char := s.data.getD i (Char.ofNat 0)

/-- The column sequence walked by the loop: indices `0 ≤ i < alignmentLength`
where `alignmentLength = max(s1Alignment.size(), s2Alignment.size())`. -/
def columnsOf (a1 a2 : String) : List (Char × Char) :=
  (List.range (max a1.length a2.length)).map (fun i => (charAt a1 i, charAt a2 i))

/-- Run the whole CIGAR-building loop over a column list. -/
def runColumns (cols : List (Char × Char)) : LoopState :=
  match cols with
  | [] => initState
  | c :: rest =>
      rest.foldl (fun st p => stepColumn false st p.1 p.2) (stepColumn true initState c.1 c.2)

/-- The fields of the comma-separated record `semiGlobalAlign` serialises
(source lines 209-224), minus the elapsed-milliseconds timing field, which is
instrumentation outside every claim.  `cigarRuns` is the run instrumentation
carried through from `LoopState`. -/
structure AlignResult where
  cigar : String
  cigarRuns : List (CigarType × Int)
  s1Start : Int
  s1End : Int
  s2Start : Int
  s2End : Int
  alignedLength : Int
  matchCount : Int
  mismatchCount : Int
  mismatchPositions : List Int
  insertionCount : Int
  insertionPositions : List Int
  deletionCount : Int
  deletionPositions : List Int
  editDistance : Int
  percentIdentity : Option ℚ
deriving DecidableEq, Repr

/-- IEEE double division as used for `100.0 * matchCount / alignedLength`:
when the denominator is zero the C++ expression evaluates to NaN (the
numerator is then also zero), modelled as `none`; otherwise the quotient is
modelled exactly in `ℚ`. -/
def divDouble (a b : ℚ) : Option ℚ := if b = 0 then none else some (a / b)

/-- Source lines 187-224: the trailing-run correction, the final
`getCigarPart` append, and the assembly of the result record. -/
def finalize (st : LoopState) : AlignResult :=
  let t := st.currentCigarType
  let finalType := if t = INSERTION then CLIP else if t = DELETION then NOTHING else t
  let insertionCount :=
    if t = INSERTION then st.insertionCount - st.currentCigarLength else st.insertionCount
  let deletionCount :=
    if t = DELETION then st.deletionCount - st.currentCigarLength else st.deletionCount
  let s1End := if t = INSERTION then st.s1Bases - st.currentCigarLength else st.s1Bases
  let s2End := if t = DELETION then st.s2Bases - st.currentCigarLength else st.s2Bases
  let cigarString := st.cigarString ++ getCigarPart finalType st.currentCigarLength
  let cigarRuns := pushRun st.cigarRuns finalType st.currentCigarLength
  let editDistance := st.mismatchCount + insertionCount + deletionCount
  let alignedLength := st.matchCount + st.mismatchCount + insertionCount + deletionCount
  { cigar := cigarString
    cigarRuns := cigarRuns
    s1Start := st.s1Start
    s1End := s1End
    s2Start := st.s2Start
    s2End := s2End
    alignedLength := alignedLength
    matchCount := st.matchCount
    mismatchCount := st.mismatchCount
    mismatchPositions := st.s2MismatchPositions
    insertionCount := insertionCount
    insertionPositions := st.s2InsertionPositions
    deletionCount := deletionCount
    deletionPositions := st.s2DeletionPositions
    editDistance := editDistance
    percentIdentity := divDouble (100 * st.matchCount) alignedLength }

/-- The CIGAR/statistics stage of `semiGlobalAlign` (source lines 121-224) as
a function of the two aligned strings produced by the banded alignment. -/
def buildAlignmentRecord (a1 a2 : String) : AlignResult :=
  finalize (runColumns (columnsOf a1 a2))

/-- A SeqAn `Seed<Simple>` as far as `semiGlobalAlign` reads it: begin/end
positions on the horizontal (seq1) and vertical (seq2) sequences. -/
structure Seed where
  beginH : Int
  beginV : Int
  endH : Int
  endV : Int
deriving DecidableEq, Repr

/-- Model of `endPositionH(seedChain[seedsInChain-1]) - beginPositionH(seedChain[0])`
(source line 86); 0 for an empty chain, which the code never reaches. -/
def chainSeq1Span : List Seed → Int
  | [] => 0
  | f :: rest => ((f :: rest).getLast (List.cons_ne_nil f rest)).endH - f.beginH

/-- Model of `endPositionV(seedChain[seedsInChain-1]) - beginPositionV(seedChain[0])`
(source line 87); 0 for an empty chain, which the code never reaches. -/
def chainSeq2Span : List Seed → Int
  | [] => 0
  | f :: rest => ((f :: rest).getLast (List.cons_ne_nil f rest)).endV - f.beginV

/-- Model of `semiGlobalAlign` from the seed-chain check onwards (source
lines 82-235).  The seed chain (output of SeqAn's `chainSeedsGlobally`) and
the two aligned strings (output of SeqAn's `bandedChainAlignment`) are
external-library results and enter as parameters.  The C++ function returns
`strdup("")` on each early exit and a non-empty comma-separated record
otherwise; the empty string is modelled as `none` and the record as `some`. -/
def semiGlobalAlign (seedChain : List Seed) (allowedLengthDiscrepancy : ℚ)
    (s1Alignment s2Alignment : String) : Option AlignResult :=
  match seedChain with
  | [] => none
  | f :: rest =>
      let seq1Span := chainSeq1Span (f :: rest)
      let seq2Span := chainSeq2Span (f :: rest)
      if seq2Span = 0 then none
      else
        let lengthRat : ℚ := (seq1Span : ℚ) / (seq2Span : ℚ)
        let minRat : ℚ := 1 - allowedLengthDiscrepancy
        let maxRat : ℚ := 1 + allowedLengthDiscrepancy
        if lengthRat < minRat ∨ lengthRat > maxRat then none
        else
          if max s1Alignment.length s2Alignment.length = 0 then none
          else some (buildAlignmentRecord s1Alignment s2Alignment)

/-- The `typedef std::tuple<std::string, int, int> Kmer`. -/
abbrev Kmer := String × Int × Int

/-- The `typedef std::tuple<int, int, int, int> CommonLocation`. -/
abbrev CommonLocation := Int × Int × Int × Int

/-- The exceptions `getSeqKmers` can raise: `std::length_error` from
`kmers.reserve(kCount)` on a negative `kCount`, and `std::out_of_range` from
`seq.substr(pos, ...)` when `pos > seq.size()`. -/
inductive KmerError where
  | lengthError
  | outOfRange
deriving DecidableEq, Repr

/-- Model of `seq.substr(i, kSize)` as called by `getSeqKmers`: throws
`std::out_of_range` when `pos > size()`; otherwise the `int` count is
converted to `size_t`, so a negative count becomes a huge unsigned value and
the count is clamped to the remaining length. -/
def cppSubstr (s : String) (pos : Nat) (count : Int) : Except KmerError String :=
  if s.length < pos then Except.error KmerError.outOfRange
  else
    let tail := s.data.drop pos
    Except.ok (String.mk (if count < 0 then tail else tail.take count.toNat))

/-- The loop of `getSeqKmers` (`for (int i = 0; i < kCount; ++i)`), pushing
one k-mer per index starting at `i` with `rem` iterations left; the first
`substr` throw aborts the loop and propagates. -/
def kmerLoop (seq : String) (kSize : Int) : Nat → Nat → Except KmerError (List Kmer)
  | _, 0 => Except.ok []
  | i, rem + 1 =>
    match cppSubstr seq i kSize with
    | Except.error e => Except.error e
    | Except.ok sub =>
      match kmerLoop seq kSize (i + 1) rem with
      | Except.error e => Except.error e
      | Except.ok rest => Except.ok ((sub, (i : Int), (i : Int) + kSize) :: rest)

/-- Model of `getSeqKmers(std::string seq, int strLen, int kSize)` (source
lines 303-314).  `kCount = strLen - kSize`; when `kCount` is negative the
call `kmers.reserve(kCount)` converts it to a huge `size_t` exceeding
`max_size()` and throws `std::length_error`; otherwise the loop runs,
propagating any `std::out_of_range` from `substr`. -/
def getSeqKmers (seq : String) (strLen kSize : Int) : Except KmerError (List Kmer) :=
  let kCount := strLen - kSize
  if kCount < 0 then Except.error KmerError.lengthError
  else kmerLoop seq kSize 0 kCount.toNat

/-- The `KmerDict`, a `std::map<std::string, std::tuple<int,int>>` modelled by its
lookup function. -/
def KmerDict := String → Option (Int × Int)

/-- Model of `s1KmerPositions[s1KmerSeq] = s1Positions;` — `operator[]` assignment
overwrites any previous binding for the key. -/
def dictInsert (d : KmerDict) (k : String) (v : Int × Int) : KmerDict :=
  fun q => if q = k then some v else d q

/-- The first loop of `getCommonLocations` (source lines 322-328): store all
seq1 k-mers in the map, later writes overwriting earlier ones. -/
def buildKmerDict (kmers : List Kmer) : KmerDict :=
  kmers.foldl (fun d km => dictInsert d km.1 (km.2.1, km.2.2)) (fun _ => none)

/-- Model of `getCommonLocations` (source lines 317-347): build the seq1
k-mer map, then for every seq2 k-mer found in the map emit one
`CommonLocation`. -/
def getCommonLocations (s1Kmers s2Kmers : List Kmer) : List CommonLocation :=
  let s1KmerPositions := buildKmerDict s1Kmers
  s2Kmers.foldl
    (fun acc km =>
      match s1KmerPositions km.1 with
      | some p => acc ++ [(p.1, p.2, km.2.1, km.2.2)]
      | none => acc)
    []

/-! Specification-side definitions, used to state the claims (these follow
the words of the spec/claims, to be compared with the source model above). -/

/-- Spec wording for C9: the seq1 occurrence that "wins" for a given k-mer
content is the most recent (last) one in seq1 order. -/
def lastOccurrence (kmers : List Kmer) (key : String) : Option (Int × Int) :=
  (kmers.reverse.find? (fun km => km.1 == key)).map (fun km => (km.2.1, km.2.2))

/-- Spec wording for C9: one `CommonLocation` per seq2 k-mer whose content is
present in seq1, pairing it with the last seq1 occurrence, in seq2 order. -/
def commonLocationsSpec (s1Kmers s2Kmers : List Kmer) : List CommonLocation :=
  s2Kmers.filterMap
    (fun km => (lastOccurrence s1Kmers km.1).map (fun p => (p.1, p.2, km.2.1, km.2.2)))

/-- Spec wording for C1: a string that is a concatenation of
`<length><opLetter>` tokens — each token some non-empty block of decimal
digits followed by a letter in {M, I, D, S}. -/
inductive LengthFirstTokens : List Char → Prop where
  | nil : LengthFirstTokens []
  | cons (ds : List Char) (op : Char) (rest : List Char) :
      ds ≠ [] → (∀ c ∈ ds, c.isDigit = true) →
      (op = 'M' ∨ op = 'I' ∨ op = 'D' ∨ op = 'S') →
      LengthFirstTokens rest → LengthFirstTokens (ds ++ op :: rest)

/-- The operation letter of a run type (empty for `NOTHING`). -/
def opLetterStr : CigarType → String
  | MATCH => "M"
  | INSERTION => "I"
  | DELETION => "D"
  | CLIP => "S"
  | NOTHING => ""

/-- Render a run list with each run as its operation letter followed by its
decimal length (the format the C++ code actually produces). -/
def renderRunsOpFirst : List (CigarType × Int) → String
  | [] => ""
  | p :: rest => opLetterStr p.1 ++ toString p.2 ++ renderRunsOpFirst rest

/-- Sum of the lengths of the runs that consume seq1 bases inside the aligned
region: Match/Mismatch (`M`) runs and Insertion runs. -/
def runSumMI (rs : List (CigarType × Int)) : Int :=
  (rs.map (fun p => if p.1 = MATCH ∨ p.1 = INSERTION then p.2 else 0)).sum

/-- Sum of the lengths of the runs that consume seq2 bases inside the aligned
region: Match/Mismatch (`M`) runs and Deletion runs. -/
def runSumMD (rs : List (CigarType × Int)) : Int :=
  (rs.map (fun p => if p.1 = MATCH ∨ p.1 = DELETION then p.2 else 0)).sum

/-- Well-formedness of the instrumentation run list: no `NOTHING` runs, all
lengths positive. -/
def RunsWF (rs : List (CigarType × Int)) : Prop :=
  ∀ p ∈ rs, p.1 ≠ NOTHING ∧ 1 ≤ p.2

/-- Loop invariant for the rendering claims: the CIGAR string built so far is
exactly the letter-first rendering of the recorded runs, and the pending run
length is non-negative, vanishing only in the initial placeholder state. -/
def StateWF (st : LoopState) : Prop :=
  st.cigarString = renderRunsOpFirst st.cigarRuns ∧
  RunsWF st.cigarRuns ∧
  0 ≤ st.currentCigarLength ∧
  (st.currentCigarLength = 0 → st.currentCigarType = NOTHING)

/-- Seq1 bases consumed by the pending (not yet flushed) run. -/
def pendMI (st : LoopState) : Int :=
  if st.currentCigarType = MATCH ∨ st.currentCigarType = INSERTION then
    st.currentCigarLength
  else 0

/-- Seq2 bases consumed by the pending (not yet flushed) run. -/
def pendMD (st : LoopState) : Int :=
  if st.currentCigarType = MATCH ∨ st.currentCigarType = DELETION then
    st.currentCigarLength
  else 0

/-- Loop invariant for the length-reconstruction claim: once the alignment
has started, flushed plus pending M/I run lengths account exactly for the
seq1 bases consumed since `s1Start`, and likewise for M/D runs and seq2;
before it starts no M/I/D run has been flushed and the pending run is a
clip or leading gap. -/
def SpanInv (st : LoopState) : Prop :=
  (st.alignmentStarted = true →
    runSumMI st.cigarRuns + pendMI st = st.s1Bases - st.s1Start ∧
    runSumMD st.cigarRuns + pendMD st = st.s2Bases - st.s2Start ∧
    (st.currentCigarType = MATCH ∨ st.currentCigarType = INSERTION ∨
      st.currentCigarType = DELETION)) ∧
  (st.alignmentStarted = false →
    runSumMI st.cigarRuns = 0 ∧ runSumMD st.cigarRuns = 0 ∧
    (st.currentCigarType = CLIP ∨ st.currentCigarType = NOTHING))

/-! ### Helper lemmas -/

theorem string_length_eq_zero_iff (s : String) : s.length = 0 ↔ s = "" := by
  cases s with
  | mk data =>
    constructor
    · intro h
      have hd : data = [] := List.length_eq_zero.mp h
      simp [hd]
    · intro h
      simp [h]

theorem str_append_empty (s : String) : s ++ "" = s := by
  cases s with
  | mk data => apply String.ext; simp

/-- Unfolding of `semiGlobalAlign`: the empty string (`none`) is returned
exactly on the four early exits. -/
theorem semiGlobalAlign_none_iff (chain : List Seed) (d : ℚ) (a1 a2 : String) :
    semiGlobalAlign chain d a1 a2 = none ↔
      chain = [] ∨ chainSeq2Span chain = 0 ∨
        ((chainSeq1Span chain : ℚ) / (chainSeq2Span chain : ℚ) < 1 - d ∨
          (chainSeq1Span chain : ℚ) / (chainSeq2Span chain : ℚ) > 1 + d) ∨
        (a1 = "" ∧ a2 = "") := by
  cases chain with
  | nil => simp [semiGlobalAlign]
  | cons f rest =>
    simp only [semiGlobalAlign]
    split_ifs with h1 h2 h3
    · simp [h1]
    · simp [h2]
    · rw [Nat.max_eq_zero_iff, string_length_eq_zero_iff, string_length_eq_zero_iff] at h3
      simp [h3]
    · rw [Nat.max_eq_zero_iff, string_length_eq_zero_iff, string_length_eq_zero_iff] at h3
      simp [h1, h2, h3]

/-- A non-`none` result of `semiGlobalAlign` is exactly the record the
CIGAR/statistics stage builds from the aligned strings. -/
theorem semiGlobalAlign_eq_some (chain : List Seed) (d : ℚ) (a1 a2 : String)
    (r : AlignResult) (h : semiGlobalAlign chain d a1 a2 = some r) :
    r = buildAlignmentRecord a1 a2 := by
  cases chain with
  | nil => simp [semiGlobalAlign] at h
  | cons f rest =>
    simp only [semiGlobalAlign] at h
    split_ifs at h <;> simp_all

/-- The seq1-k-mer map built by the first `getCommonLocations` loop resolves
every key to the last seq1 occurrence of that k-mer content. -/
theorem buildKmerDict_foldl (kmers : List Kmer) (d : KmerDict) (key : String) :
    (kmers.foldl (fun d km => dictInsert d km.1 (km.2.1, km.2.2)) d) key =
      match kmers.reverse.find? (fun km => km.1 == key) with
      | some km => some (km.2.1, km.2.2)
      | none => d key := by
  induction kmers generalizing d with
  | nil => rfl
  | cons km rest ih =>
    simp only [List.foldl_cons, List.reverse_cons, List.find?_append]
    rw [ih]
    cases hfind : rest.reverse.find? (fun km => km.1 == key) with
    | some km2 => simp
    | none =>
      simp only [Option.or_none, Option.none_or]
      simp only [List.find?_cons, List.find?_nil]
      by_cases hk : km.1 = key
      · simp [dictInsert, hk]
      · have hb : (km.1 == key) = false := beq_eq_false_iff_ne.mpr hk
        have hk2 : ¬key = km.1 := fun h => hk h.symm
        simp [dictInsert, hb, hk2]

theorem buildKmerDict_eq_lastOccurrence (kmers : List Kmer) (key : String) :
    buildKmerDict kmers key = lastOccurrence kmers key := by
  unfold buildKmerDict lastOccurrence
  rw [buildKmerDict_foldl]
  cases h : kmers.reverse.find? (fun km => km.1 == key) <;> simp

/-- The second `getCommonLocations` loop is an accumulating `filterMap`. -/
theorem commonLoc_foldl (dict : KmerDict) (s2Kmers : List Kmer)
    (acc : List CommonLocation) :
    (s2Kmers.foldl
        (fun acc km =>
          match dict km.1 with
          | some p => acc ++ [(p.1, p.2, km.2.1, km.2.2)]
          | none => acc)
        acc) =
      acc ++ s2Kmers.filterMap
        (fun km => (dict km.1).map (fun p => (p.1, p.2, km.2.1, km.2.2))) := by
  induction s2Kmers generalizing acc with
  | nil => simp
  | cons km rest ih =>
    cases h : dict km.1 with
    | some p => simp [h, ih]
    | none => simp [h, ih]

/-- Evaluation helper: the unit seed chain `(0,0)-(1,1)` with tolerance 1
passes the chain checks, so the result is the record built from the aligned
strings. -/
theorem semiGlobalAlign_unit_chain (a1 a2 : String) (h : ¬(a1 = "" ∧ a2 = "")) :
    semiGlobalAlign [⟨0, 0, 1, 1⟩] 1 a1 a2 = some (buildAlignmentRecord a1 a2) := by
  have hmax : ¬(max a1.length a2.length = 0) := by
    rw [Nat.max_eq_zero_iff, string_length_eq_zero_iff, string_length_eq_zero_iff]
    exact h
  simp only [semiGlobalAlign]
  norm_num [chainSeq1Span, chainSeq2Span, hmax]

/-! ### Claim theorems -/

/-- C9: `getCommonLocations` maps seq1 k-mer content to its last seq1
occurrence and emits, in seq2 order, one CommonLocation per seq2 k-mer whose
content is in the map, pairing it with the stored seq1 position. -/
theorem c9_common_locations_last_write_wins (s1Kmers s2Kmers : List Kmer) :
    getCommonLocations s1Kmers s2Kmers = commonLocationsSpec s1Kmers s2Kmers := by
  unfold getCommonLocations commonLocationsSpec
  rw [commonLoc_foldl]
  simp only [List.nil_append]
  apply List.filterMap_congr
  intro km _
  rw [buildKmerDict_eq_lastOccurrence]

/-- C5: `semiGlobalAlign` returns the empty string (modelled `none`), with no
partial record, exactly when the seed chain is empty, the chain's seq2 span
is zero, the span quotient is out of tolerance, or both aligned strings are
empty. -/
theorem c5_empty_result_iff (chain : List Seed) (d : ℚ) (a1 a2 : String) :
    semiGlobalAlign chain d a1 a2 = none ↔
      chain = [] ∨ chainSeq2Span chain = 0 ∨
        ((chainSeq1Span chain : ℚ) / (chainSeq2Span chain : ℚ) < 1 - d ∨
          (chainSeq1Span chain : ℚ) / (chainSeq2Span chain : ℚ) > 1 + d) ∨
        (a1 = "" ∧ a2 = "") :=
  semiGlobalAlign_none_iff chain d a1 a2

/-- C6: with a non-empty chain, non-zero seq2 span, a non-negative tolerance
and a non-degenerate alignment, a span quotient exactly at `1 ± d` is
accepted, and the result is empty precisely when the quotient is strictly
below `1 - d` or strictly above `1 + d`. -/
theorem c6_ratio_filter_boundary (chain : List Seed) (d : ℚ) (a1 a2 : String)
    (hchain : chain ≠ []) (hspan : chainSeq2Span chain ≠ 0) (hd : 0 ≤ d)
    (hne : ¬(a1 = "" ∧ a2 = "")) :
    (((chainSeq1Span chain : ℚ) / (chainSeq2Span chain : ℚ) = 1 - d ∨
        (chainSeq1Span chain : ℚ) / (chainSeq2Span chain : ℚ) = 1 + d) →
      ∃ r, semiGlobalAlign chain d a1 a2 = some r) ∧
    (semiGlobalAlign chain d a1 a2 = none ↔
      ((chainSeq1Span chain : ℚ) / (chainSeq2Span chain : ℚ) < 1 - d ∨
        (chainSeq1Span chain : ℚ) / (chainSeq2Span chain : ℚ) > 1 + d)) := by
  have hiff : semiGlobalAlign chain d a1 a2 = none ↔
      ((chainSeq1Span chain : ℚ) / (chainSeq2Span chain : ℚ) < 1 - d ∨
        (chainSeq1Span chain : ℚ) / (chainSeq2Span chain : ℚ) > 1 + d) := by
    rw [semiGlobalAlign_none_iff]
    simp [hchain, hspan, hne]
  refine ⟨?_, hiff⟩
  intro hb
  have hnot : ¬((chainSeq1Span chain : ℚ) / (chainSeq2Span chain : ℚ) < 1 - d ∨
      (chainSeq1Span chain : ℚ) / (chainSeq2Span chain : ℚ) > 1 + d) := by
    rcases hb with h | h <;> rw [h] <;> push_neg <;> constructor <;> linarith
  exact Option.ne_none_iff_exists'.mp (fun hn => hnot (hiff.mp hn))

/-- C6 witness: a chain with seq1 span 1 and seq2 span 2 sits exactly at the
lower boundary `1 - d` for `d = 1/2` and is accepted. -/
theorem c6_witness :
    ((((chainSeq1Span [⟨0, 0, 1, 2⟩] : Int) : ℚ) / ((chainSeq2Span [⟨0, 0, 1, 2⟩] : Int) : ℚ)
          = 1 - (1 / 2 : ℚ) ∨
        (((chainSeq1Span [⟨0, 0, 1, 2⟩] : Int) : ℚ) / ((chainSeq2Span [⟨0, 0, 1, 2⟩] : Int) : ℚ)
          = 1 + (1 / 2 : ℚ))) →
      ∃ r, semiGlobalAlign [⟨0, 0, 1, 2⟩] (1 / 2 : ℚ) "A" "A" = some r) ∧
    (semiGlobalAlign [⟨0, 0, 1, 2⟩] (1 / 2 : ℚ) "A" "A" = none ↔
      (((chainSeq1Span [⟨0, 0, 1, 2⟩] : Int) : ℚ) / ((chainSeq2Span [⟨0, 0, 1, 2⟩] : Int) : ℚ)
          < 1 - (1 / 2 : ℚ) ∨
        ((chainSeq1Span [⟨0, 0, 1, 2⟩] : Int) : ℚ) / ((chainSeq2Span [⟨0, 0, 1, 2⟩] : Int) : ℚ)
          > 1 + (1 / 2 : ℚ))) :=
  c6_ratio_filter_boundary [⟨0, 0, 1, 2⟩] (1 / 2 : ℚ) "A" "A"
    (by decide) (by decide) (by norm_num) (by decide)

/-- C3 (code bug): on an alignment ending in an insertion run the code
subtracts the trailing run from `insertionCount` but keeps all recorded
insertion positions, so the list is longer than the count. -/
theorem c3_position_list_count_mismatch :
    (semiGlobalAlign [⟨0, 0, 1, 1⟩] 1 "AC" "A-").map
        (fun r => (r.insertionCount, (r.insertionPositions.length : Int))) = some (0, 1) ∧
    (0 : Int) ≠ 1 := by
  rw [semiGlobalAlign_unit_chain "AC" "A-" (by decide)]
  exact ⟨by decide, by decide⟩

/-- C8 (code bug): on a non-empty result with `alignedLength = 0` the code
computes `100.0 * matchCount / alignedLength` with no guard, an IEEE
`0.0/0.0` NaN (modelled `none`), not an explicitly defined value. -/
theorem c8_percent_identity_unguarded :
    (semiGlobalAlign [⟨0, 0, 1, 1⟩] 1 "A-" "-A").map
        (fun r => (r.alignedLength, r.percentIdentity)) = some (0, none) := by
  rw [semiGlobalAlign_unit_chain "A-" "-A" (by decide)]
  decide

/-- C7 counterexample: with `kSize = 0 ≤ 0` and `strLen = 2` the function
returns two (degenerate) k-mers rather than the empty list; with
`kSize = -2 ≤ 0` the loop reaches `substr` with `pos = 3 > size()` and
throws `std::out_of_range`; and with `kSize = 5 ≥ strLen = 2` the negative
`kCount` makes `reserve` throw `length_error` — so neither degenerate side
of the claim returns an empty list without crashing. -/
theorem c7_counterexample :
    getSeqKmers "AC" 2 0 = Except.ok [("", 0, 0), ("", 1, 1)] ∧
    getSeqKmers "AC" 2 (-2) = Except.error KmerError.outOfRange ∧
    getSeqKmers "AC" 2 5 = Except.error KmerError.lengthError := by
  exact ⟨rfl, rfl, rfl⟩

/-- C2 counterexample: on an alignment whose final run is a Deletion, the
code drops the run from the CIGAR entirely (the result is `"M1"`, with no
`S` clip run), while still subtracting the length from `deletionCount` and
moving `s2End` back. -/
theorem c2_counterexample :
    (runColumns (columnsOf "A-" "AA")).currentCigarType = DELETION ∧
    (semiGlobalAlign [⟨0, 0, 1, 1⟩] 1 "A-" "AA").map
        (fun r => (r.cigar, r.deletionCount, r.s2End)) = some ("M1", 0, 1) ∧
    ¬('S' ∈ "M1".data) := by
  rw [semiGlobalAlign_unit_chain "A-" "AA" (by decide)]
  refine ⟨by decide, by decide, by decide⟩

/-- C2 (amended): if the final run is an Insertion it is reclassified as a
Clip and emitted as a trailing `S` run, `insertionCount` shrinks by its
length and `s1End` moves back by its length; if the final run is a Deletion
it is reclassified as `NOTHING` and omitted from the CIGAR entirely (no `S`
run is emitted), `deletionCount` shrinks by its length and `s2End` moves
back by its length. -/
theorem c2_trailing_gap_correction (st : LoopState) :
    (st.currentCigarType = INSERTION →
      (finalize st).cigar = st.cigarString ++ "S" ++ toString st.currentCigarLength ∧
      (finalize st).insertionCount = st.insertionCount - st.currentCigarLength ∧
      (finalize st).deletionCount = st.deletionCount ∧
      (finalize st).s1End = st.s1Bases - st.currentCigarLength ∧
      (finalize st).s2End = st.s2Bases) ∧
    (st.currentCigarType = DELETION →
      (finalize st).cigar = st.cigarString ∧
      (finalize st).deletionCount = st.deletionCount - st.currentCigarLength ∧
      (finalize st).insertionCount = st.insertionCount ∧
      (finalize st).s2End = st.s2Bases - st.currentCigarLength ∧
      (finalize st).s1End = st.s1Bases) := by
  constructor <;> intro h <;>
    simp [finalize, getCigarPart, h, String.append_assoc, str_append_empty]

/-- C2 witness: concrete alignments ending in an insertion (`"AA"` over
`"A-"`) and in a deletion (`"A-"` over `"AA"`). -/
theorem c2_witness :
    ((finalize (runColumns (columnsOf "AA" "A-"))).cigar =
        (runColumns (columnsOf "AA" "A-")).cigarString ++ "S" ++
          toString (runColumns (columnsOf "AA" "A-")).currentCigarLength ∧
      (finalize (runColumns (columnsOf "AA" "A-"))).insertionCount =
        (runColumns (columnsOf "AA" "A-")).insertionCount -
          (runColumns (columnsOf "AA" "A-")).currentCigarLength ∧
      (finalize (runColumns (columnsOf "AA" "A-"))).deletionCount =
        (runColumns (columnsOf "AA" "A-")).deletionCount ∧
      (finalize (runColumns (columnsOf "AA" "A-"))).s1End =
        (runColumns (columnsOf "AA" "A-")).s1Bases -
          (runColumns (columnsOf "AA" "A-")).currentCigarLength ∧
      (finalize (runColumns (columnsOf "AA" "A-"))).s2End =
        (runColumns (columnsOf "AA" "A-")).s2Bases) ∧
    ((finalize (runColumns (columnsOf "A-" "AA"))).cigar =
        (runColumns (columnsOf "A-" "AA")).cigarString ∧
      (finalize (runColumns (columnsOf "A-" "AA"))).deletionCount =
        (runColumns (columnsOf "A-" "AA")).deletionCount -
          (runColumns (columnsOf "A-" "AA")).currentCigarLength ∧
      (finalize (runColumns (columnsOf "A-" "AA"))).insertionCount =
        (runColumns (columnsOf "A-" "AA")).insertionCount ∧
      (finalize (runColumns (columnsOf "A-" "AA"))).s2End =
        (runColumns (columnsOf "A-" "AA")).s2Bases -
          (runColumns (columnsOf "A-" "AA")).currentCigarLength ∧
      (finalize (runColumns (columnsOf "A-" "AA"))).s1End =
        (runColumns (columnsOf "A-" "AA")).s1Bases) :=
  ⟨(c2_trailing_gap_correction (runColumns (columnsOf "AA" "A-"))).1 (by decide),
   (c2_trailing_gap_correction (runColumns (columnsOf "A-" "AA"))).2 (by decide)⟩

/-- When every visited index stays within the string (plus the end
position), the k-mer loop succeeds and produces one clamped window record
per index. -/
theorem kmerLoop_ok (seq : String) (kSize : Int) :
    ∀ (rem i : Nat), i + rem ≤ seq.length + 1 →
      ∃ l, kmerLoop seq kSize i rem = Except.ok l ∧ l.length = rem ∧
        ∀ j : Nat, j < rem →
          l.getD j ("", 0, 0) =
            (String.mk (if kSize < 0 then seq.data.drop (i + j)
                else (seq.data.drop (i + j)).take kSize.toNat),
              ((i + j : Nat) : Int), ((i + j : Nat) : Int) + kSize) := by
  intro rem
  induction rem with
  | zero =>
    intro i _
    exact ⟨[], rfl, rfl, fun j hj => absurd hj (by omega)⟩
  | succ rem ih =>
    intro i hbound
    have hpos : ¬(seq.length < i) := by omega
    obtain ⟨l2, hl2, hlen2, helem2⟩ := ih (i + 1) (by omega)
    refine ⟨(String.mk (if kSize < 0 then seq.data.drop i
        else (seq.data.drop i).take kSize.toNat), (i : Int), (i : Int) + kSize) :: l2,
      ?_, ?_, ?_⟩
    · unfold kmerLoop cppSubstr
      rw [if_neg hpos]
      simp [hl2]
    · simp [hlen2]
    · intro j hj
      cases j with
      | zero => simp
      | succ j2 =>
        have hidx : i + 1 + j2 = i + (j2 + 1) := by omega
        have h2 := helem2 j2 (by omega)
        rw [hidx] at h2
        simpa [List.getD_cons_succ] using h2

/-- Once the loop's index range passes the string length, the first
out-of-range index makes `substr` throw. -/
theorem kmerLoop_err (seq : String) (kSize : Int) :
    ∀ (rem i : Nat), seq.length + 1 < i + rem → i ≤ seq.length + 1 →
      kmerLoop seq kSize i rem = Except.error KmerError.outOfRange := by
  intro rem
  induction rem with
  | zero => intro i h1 h2; omega
  | succ rem ih =>
    intro i h1 h2
    by_cases hp : seq.length < i
    · unfold kmerLoop cppSubstr
      rw [if_pos hp]
    · unfold kmerLoop cppSubstr
      rw [if_neg hp]
      simp [ih (i + 1) (by omega) (by omega)]

/-- C7 (amended): with `strLen` the true sequence length, `getSeqKmers` is
characterised completely by: for `-1 ≤ kSize ≤ strLen` it returns exactly
`strLen - kSize` k-mers, the `i`-th being the substring at positions
`[i, i+kSize)` (clamped: the whole suffix from `i` when `kSize < 0`, empty
when `kSize = 0`) together with offsets `i` and `i + kSize`; for
`kSize ≤ -2` the loop reaches `substr` with `pos > size()` and throws
`std::out_of_range`; and for `kSize > strLen` the `reserve(kCount)` call on
the negative `kCount` throws `std::length_error`.  In particular, for
`kSize ≤ 0` the function never returns an empty list without crashing. -/
theorem c7_kmer_window_characterisation (seq : String) (kSize : Int) :
    ((-1 : Int) ≤ kSize → kSize ≤ (seq.length : Int) →
      ∃ l, getSeqKmers seq (seq.length : Int) kSize = Except.ok l ∧
        (l.length : Int) = (seq.length : Int) - kSize ∧
        ∀ i : Nat, (i : Int) < (seq.length : Int) - kSize →
          l.getD i ("", 0, 0) =
            (String.mk (if kSize < 0 then seq.data.drop i
                else (seq.data.drop i).take kSize.toNat),
              (i : Int), (i : Int) + kSize)) ∧
    (kSize ≤ -2 →
      getSeqKmers seq (seq.length : Int) kSize = Except.error KmerError.outOfRange) ∧
    ((seq.length : Int) < kSize →
      getSeqKmers seq (seq.length : Int) kSize = Except.error KmerError.lengthError) := by
  refine ⟨?_, ?_, ?_⟩
  · intro hm1 hle
    have hkc : ¬((seq.length : Int) - kSize < 0) := by omega
    obtain ⟨l, hl, hlen, helem⟩ :=
      kmerLoop_ok seq kSize ((seq.length : Int) - kSize).toNat 0 (by omega)
    refine ⟨l, ?_, ?_, ?_⟩
    · unfold getSeqKmers
      rw [if_neg hkc]
      exact hl
    · rw [hlen, Int.toNat_of_nonneg (by omega)]
    · intro i hi
      have := helem i (by omega)
      simpa using this
  · intro hm2
    have hkc : ¬((seq.length : Int) - kSize < 0) := by omega
    unfold getSeqKmers
    rw [if_neg hkc]
    exact kmerLoop_err seq kSize ((seq.length : Int) - kSize).toNat 0 (by omega) (by omega)
  · intro hm3
    unfold getSeqKmers
    rw [if_pos (by omega)]

/-- C7 witness: `"ACGT"` with `kSize = 2` yields two k-mers; `"AC"` with
`kSize = -2` throws `out_of_range`; `"AC"` with `kSize = 5` throws
`length_error`. -/
theorem c7_witness :
    (∃ l, getSeqKmers "ACGT" (("ACGT".length : Nat) : Int) 2 = Except.ok l ∧
        (l.length : Int) = (("ACGT".length : Nat) : Int) - 2 ∧
        ∀ i : Nat, (i : Int) < (("ACGT".length : Nat) : Int) - 2 →
          l.getD i ("", 0, 0) =
            (String.mk (if (2 : Int) < 0 then ("ACGT" : String).data.drop i
                else (("ACGT" : String).data.drop i).take (2 : Int).toNat),
              (i : Int), (i : Int) + 2)) ∧
    getSeqKmers "AC" (("AC".length : Nat) : Int) (-2) = Except.error KmerError.outOfRange ∧
    getSeqKmers "AC" (("AC".length : Nat) : Int) 5 = Except.error KmerError.lengthError :=
  ⟨(c7_kmer_window_characterisation "ACGT" 2).1 (by decide) (by decide),
   (c7_kmer_window_characterisation "AC" (-2)).2.1 (by decide),
   (c7_kmer_window_characterisation "AC" 5).2.2 (by decide)⟩

set_option maxHeartbeats 1000000 in
/-- A column with a gap on either side leaves the start-of-alignment state
untouched. -/
theorem stepColumn_gap_fields (first : Bool) (st : LoopState) (b1 b2 : Char)
    (hc : b1 = '-' ∨ b2 = '-') :
    (stepColumn first st b1 b2).alignmentStarted = st.alignmentStarted ∧
    (stepColumn first st b1 b2).s1Start = st.s1Start ∧
    (stepColumn first st b1 b2).s2Start = st.s2Start := by
  have hns : ¬(b1 ≠ '-' ∧ b2 ≠ '-' ∧ st.alignmentStarted = false) := by
    rcases hc with h | h <;> simp [h]
  simp only [stepColumn, if_neg hns]
  split_ifs <;> exact ⟨rfl, rfl, rfl⟩

/-- If every column has a gap on one side, the loop never starts the
alignment and the `-1` initialisation sentinels survive. -/
theorem runColumns_gap (cols : List (Char × Char))
    (h : ∀ c ∈ cols, c.1 = '-' ∨ c.2 = '-') :
    (runColumns cols).alignmentStarted = false ∧
    (runColumns cols).s1Start = -1 ∧ (runColumns cols).s2Start = -1 := by
  have main : ∀ (cs : List (Char × Char)) (st : LoopState),
      (∀ c ∈ cs, c.1 = '-' ∨ c.2 = '-') →
      st.alignmentStarted = false → st.s1Start = -1 → st.s2Start = -1 →
      ((cs.foldl (fun s p => stepColumn false s p.1 p.2) st).alignmentStarted = false ∧
        (cs.foldl (fun s p => stepColumn false s p.1 p.2) st).s1Start = -1 ∧
        (cs.foldl (fun s p => stepColumn false s p.1 p.2) st).s2Start = -1) := by
    intro cs
    induction cs with
    | nil => intro st _ h1 h2 h3; exact ⟨h1, h2, h3⟩
    | cons c rest ih =>
      intro st hmem h1 h2 h3
      simp only [List.foldl_cons]
      obtain ⟨e1, e2, e3⟩ := stepColumn_gap_fields false st c.1 c.2 (hmem c (by simp))
      exact ih _ (fun x hx => hmem x (by simp [hx])) (e1.trans h1) (e2.trans h2) (e3.trans h3)
  cases cols with
  | nil => exact ⟨rfl, rfl, rfl⟩
  | cons c rest =>
    simp only [runColumns]
    obtain ⟨e1, e2, e3⟩ := stepColumn_gap_fields true initState c.1 c.2 (h c (by simp))
    exact main rest _ (fun x hx => h x (by simp [hx])) (e1.trans rfl) (e2.trans rfl) (e3.trans rfl)

/-- C10: when the chain checks pass and the (non-empty) aligned pair has no
column with bases on both sides, `semiGlobalAlign` still returns a full
record whose `s1Start` and `s2Start` are the unmodified `-1` sentinels. -/
theorem c10_unstarted_alignment_sentinels (chain : List Seed) (d : ℚ) (a1 a2 : String)
    (hchain : chain ≠ []) (hspan : chainSeq2Span chain ≠ 0)
    (hrat : ¬((chainSeq1Span chain : ℚ) / (chainSeq2Span chain : ℚ) < 1 - d ∨
        (chainSeq1Span chain : ℚ) / (chainSeq2Span chain : ℚ) > 1 + d))
    (hne : ¬(a1 = "" ∧ a2 = ""))
    (hcols : ∀ c ∈ columnsOf a1 a2, c.1 = '-' ∨ c.2 = '-') :
    ∃ r, semiGlobalAlign chain d a1 a2 = some r ∧ r.s1Start = -1 ∧ r.s2Start = -1 := by
  obtain ⟨e1, e2, e3⟩ := runColumns_gap (columnsOf a1 a2) hcols
  refine ⟨buildAlignmentRecord a1 a2, ?_, e2, e3⟩
  cases chain with
  | nil => exact absurd rfl hchain
  | cons f rest =>
    have hmax : ¬(max a1.length a2.length = 0) := by
      rw [Nat.max_eq_zero_iff, string_length_eq_zero_iff, string_length_eq_zero_iff]
      exact hne
    simp only [semiGlobalAlign]
    rw [if_neg hspan, if_neg hrat, if_neg hmax]

/-- C10 witness: the aligned pair `"A-"` over `"-A"` has no doubly-occupied
column; the unit chain passes the filters. -/
theorem c10_witness :
    ∃ r, semiGlobalAlign [⟨0, 0, 1, 1⟩] 1 "A-" "-A" = some r ∧
      r.s1Start = -1 ∧ r.s2Start = -1 :=
  c10_unstarted_alignment_sentinels [⟨0, 0, 1, 1⟩] 1 "A-" "-A"
    (by decide) (by decide)
    (by norm_num [show chainSeq1Span [⟨0, 0, 1, 1⟩] = 1 from rfl,
          show chainSeq2Span [⟨0, 0, 1, 1⟩] = 1 from rfl])
    (by decide) (by decide)

theorem getCigarPart_eq_opLetter (t : CigarType) (l : Int) (h : t ≠ NOTHING) :
    getCigarPart t l = opLetterStr t ++ toString l := by
  cases t <;> simp_all [getCigarPart, opLetterStr]

theorem renderRunsOpFirst_append (rs : List (CigarType × Int)) (p : CigarType × Int) :
    renderRunsOpFirst (rs ++ [p]) =
      renderRunsOpFirst rs ++ (opLetterStr p.1 ++ toString p.2) := by
  induction rs with
  | nil => simp [renderRunsOpFirst, str_append_empty]
  | cons q rest ih => simp [renderRunsOpFirst, ih, String.append_assoc]

theorem renderRuns_pushRun (rs : List (CigarType × Int)) (t : CigarType) (l : Int) :
    renderRunsOpFirst (pushRun rs t l) = renderRunsOpFirst rs ++ getCigarPart t l := by
  by_cases h : t = NOTHING
  · simp [pushRun, h, getCigarPart, str_append_empty]
  · simp [pushRun, h, renderRunsOpFirst_append, getCigarPart_eq_opLetter t l h]

theorem RunsWF_pushRun (rs : List (CigarType × Int)) (t : CigarType) (l : Int)
    (hw : RunsWF rs) (hl : t ≠ NOTHING → 1 ≤ l) : RunsWF (pushRun rs t l) := by
  by_cases h : t = NOTHING
  · simpa [pushRun, h] using hw
  · intro p hp
    rw [pushRun, if_neg h] at hp
    rcases List.mem_append.mp hp with hin | hin
    · exact hw p hin
    · rcases List.mem_singleton.mp hin with rfl
      exact ⟨h, hl h⟩

set_option maxHeartbeats 2000000 in
/-- One loop iteration preserves the rendering invariant. -/
theorem stepColumn_wf (first : Bool) (st : LoopState) (b1 b2 : Char)
    (h : StateWF st) : StateWF (stepColumn first st b1 b2) := by
  obtain ⟨hrender, hwf, hlen, hzero⟩ := h
  have h1le : st.currentCigarType ≠ NOTHING → 1 ≤ st.currentCigarLength := by
    intro hne
    rcases eq_or_lt_of_le hlen with h0 | h0
    · exact absurd (hzero h0.symm) hne
    · omega
  have hpush : RunsWF (pushRun st.cigarRuns st.currentCigarType st.currentCigarLength) :=
    RunsWF_pushRun _ _ _ hwf h1le
  by_cases hb1 : b1 = '-' <;> by_cases hb2 : b2 = '-' <;>
    cases hst : st.alignmentStarted <;> cases first <;>
    simp [stepColumn, getCigarType, hb1, hb2, hst, StateWF] <;>
    (try split_ifs) <;>
    (try simp_all [renderRuns_pushRun]) <;>
    omega

/-- The loop as a whole establishes the rendering invariant. -/
theorem runColumns_wf (cols : List (Char × Char)) : StateWF (runColumns cols) := by
  have hinit : StateWF initState := by
    refine ⟨rfl, ?_, le_refl 0, fun _ => rfl⟩
    intro p hp
    simp [initState] at hp
  cases cols with
  | nil => exact hinit
  | cons c rest =>
    have main : ∀ (cs : List (Char × Char)) (st : LoopState), StateWF st →
        StateWF (cs.foldl (fun s p => stepColumn false s p.1 p.2) st) := by
      intro cs
      induction cs with
      | nil => intro st hst; exact hst
      | cons x xs ih =>
        intro st hst
        simp only [List.foldl_cons]
        exact ih _ (stepColumn_wf false st x.1 x.2 hst)
    exact main rest _ (stepColumn_wf true initState c.1 c.2 hinit)

/-- The final flush keeps the rendering invariant: the finished CIGAR string
is the letter-first rendering of the recorded runs, all of which are
non-`NOTHING` with positive lengths. -/
theorem finalize_wf (st : LoopState) (h : StateWF st) :
    (finalize st).cigar = renderRunsOpFirst (finalize st).cigarRuns ∧
    RunsWF (finalize st).cigarRuns := by
  obtain ⟨hrender, hwf, hlen, hzero⟩ := h
  have hfin : (finalize st).cigar =
      st.cigarString ++ getCigarPart
        (if st.currentCigarType = INSERTION then CLIP
          else if st.currentCigarType = DELETION then NOTHING else st.currentCigarType)
        st.currentCigarLength := rfl
  have hruns : (finalize st).cigarRuns =
      pushRun st.cigarRuns
        (if st.currentCigarType = INSERTION then CLIP
          else if st.currentCigarType = DELETION then NOTHING else st.currentCigarType)
        st.currentCigarLength := rfl
  constructor
  · rw [hfin, hruns, renderRuns_pushRun, hrender]
  · rw [hruns]
    refine RunsWF_pushRun _ _ _ hwf ?_
    intro hne
    split_ifs at hne with hi hd
    · rcases eq_or_lt_of_le hlen with h0 | h0
      · exact absurd (hzero h0.symm) (by simp [hi])
      · omega
    · exact absurd rfl hne
    · rcases eq_or_lt_of_le hlen with h0 | h0
      · exact absurd (hzero h0.symm) hne
      · omega

/-- A `<length><opLetter>`-token string starting with a character starts with
a digit. -/
theorem LengthFirstTokens_head_digit (l : List Char) (h : LengthFirstTokens l) :
    ∀ c cs, l = c :: cs → c.isDigit = true := by
  cases h with
  | nil => intro c cs hc; exact absurd hc (by simp)
  | cons ds op rest hne hdig hop hrest =>
    intro c cs hc
    cases ds with
    | nil => exact absurd rfl hne
    | cons d ds2 =>
      rw [List.cons_append] at hc
      injection hc with h1 _
      rw [← h1]
      exact hdig d (List.mem_cons_self d ds2)

/-- C1 counterexample: aligning `"A"` with `"A"` yields the CIGAR `"M1"` —
the operation letter precedes the length, so the string is not a
concatenation of `<length><opLetter>` tokens. -/
theorem c1_counterexample :
    (semiGlobalAlign [⟨0, 0, 1, 1⟩] 1 "A" "A").map (fun r => r.cigar) = some "M1" ∧
    ¬LengthFirstTokens ("M1".data) := by
  constructor
  · rw [semiGlobalAlign_unit_chain "A" "A" (by decide)]
    decide
  · intro h
    have hdig := LengthFirstTokens_head_digit _ h 'M' ['1'] rfl
    exact absurd hdig (by decide)

/-- C1 (amended): every non-empty `semiGlobalAlign` result has a CIGAR that
is a concatenation of `<opLetter><length>` tokens — each run rendered as its
operation letter (from {M, I, D, S}) followed by its decimal run length,
every run length being at least 1. -/
theorem c1_cigar_op_letter_first (chain : List Seed) (d : ℚ) (a1 a2 : String)
    (r : AlignResult) (h : semiGlobalAlign chain d a1 a2 = some r) :
    ∃ runs : List (CigarType × Int),
      (∀ p ∈ runs,
        (p.1 = MATCH ∨ p.1 = INSERTION ∨ p.1 = DELETION ∨ p.1 = CLIP) ∧ 1 ≤ p.2) ∧
      r.cigar = renderRunsOpFirst runs := by
  obtain rfl := semiGlobalAlign_eq_some chain d a1 a2 r h
  obtain ⟨hr, hwf⟩ := finalize_wf (runColumns (columnsOf a1 a2)) (runColumns_wf _)
  refine ⟨(buildAlignmentRecord a1 a2).cigarRuns, ?_, hr⟩
  intro p hp
  obtain ⟨hne, hle⟩ := hwf p hp
  refine ⟨?_, hle⟩
  cases hp1 : p.1 <;> simp_all

/-- C1 witness: the identity alignment of `"A"`. -/
theorem c1_witness :
    ∃ runs : List (CigarType × Int),
      (∀ p ∈ runs,
        (p.1 = MATCH ∨ p.1 = INSERTION ∨ p.1 = DELETION ∨ p.1 = CLIP) ∧ 1 ≤ p.2) ∧
      (buildAlignmentRecord "A" "A").cigar = renderRunsOpFirst runs :=
  c1_cigar_op_letter_first [⟨0, 0, 1, 1⟩] 1 "A" "A" (buildAlignmentRecord "A" "A")
    (semiGlobalAlign_unit_chain "A" "A" (by decide))

theorem runSumMI_pushRun (rs : List (CigarType × Int)) (t : CigarType) (l : Int) :
    runSumMI (pushRun rs t l) =
      runSumMI rs + (if t = MATCH ∨ t = INSERTION then l else 0) := by
  by_cases h : t = NOTHING
  · simp [pushRun, h, runSumMI]
  · simp [pushRun, h, runSumMI]

theorem runSumMD_pushRun (rs : List (CigarType × Int)) (t : CigarType) (l : Int) :
    runSumMD (pushRun rs t l) =
      runSumMD rs + (if t = MATCH ∨ t = DELETION then l else 0) := by
  by_cases h : t = NOTHING
  · simp [pushRun, h, runSumMD]
  · simp [pushRun, h, runSumMD]

set_option maxHeartbeats 1000000 in
/-- Once the alignment has started, it stays started. -/
theorem stepColumn_started_mono (first : Bool) (st : LoopState) (b1 b2 : Char)
    (h : st.alignmentStarted = true) :
    (stepColumn first st b1 b2).alignmentStarted = true := by
  have hns : ¬(b1 ≠ '-' ∧ b2 ≠ '-' ∧ st.alignmentStarted = false) := by simp [h]
  simp only [stepColumn, if_neg hns]
  split_ifs <;> exact h

set_option maxHeartbeats 1000000 in
/-- A column with bases on both sides starts the alignment. -/
theorem stepColumn_started_set (first : Bool) (st : LoopState) (b1 b2 : Char)
    (hb1 : b1 ≠ '-') (hb2 : b2 ≠ '-') :
    (stepColumn first st b1 b2).alignmentStarted = true := by
  cases hst : st.alignmentStarted with
  | true => exact stepColumn_started_mono first st b1 b2 hst
  | false =>
    have hpos : b1 ≠ '-' ∧ b2 ≠ '-' ∧ st.alignmentStarted = false := ⟨hb1, hb2, hst⟩
    simp only [stepColumn, if_pos hpos]
    split_ifs <;> rfl

/-- If some column has bases on both sides, the loop ends started. -/
theorem runColumns_started (cols : List (Char × Char))
    (h : ∃ c ∈ cols, c.1 ≠ '-' ∧ c.2 ≠ '-') :
    (runColumns cols).alignmentStarted = true := by
  have hmono : ∀ (cs : List (Char × Char)) (st : LoopState), st.alignmentStarted = true →
      (cs.foldl (fun s p => stepColumn false s p.1 p.2) st).alignmentStarted = true := by
    intro cs
    induction cs with
    | nil => intro st hst; exact hst
    | cons x xs ih =>
      intro st hst
      exact ih _ (stepColumn_started_mono false st x.1 x.2 hst)
  have hset : ∀ (cs : List (Char × Char)) (st : LoopState),
      (∃ c ∈ cs, c.1 ≠ '-' ∧ c.2 ≠ '-') →
      (cs.foldl (fun s p => stepColumn false s p.1 p.2) st).alignmentStarted = true := by
    intro cs
    induction cs with
    | nil => intro st hex; simp at hex
    | cons x xs ih =>
      intro st hex
      rcases hex with ⟨c, hc, hcc⟩
      rcases List.mem_cons.mp hc with rfl | hin
      · exact hmono xs _ (stepColumn_started_set false st c.1 c.2 hcc.1 hcc.2)
      · exact ih _ ⟨c, hin, hcc⟩
  cases cols with
  | nil => simp at h
  | cons c rest =>
    simp only [runColumns]
    rcases h with ⟨x, hx, hxx⟩
    rcases List.mem_cons.mp hx with rfl | hin
    · exact hmono rest _ (stepColumn_started_set true initState x.1 x.2 hxx.1 hxx.2)
    · exact hset rest _ ⟨x, hin, hxx⟩

set_option maxHeartbeats 2000000 in
/-- The first loop iteration establishes the span invariant. -/
theorem stepColumn_span_first (b1 b2 : Char) : SpanInv (stepColumn true initState b1 b2) := by
  by_cases hb1 : b1 = '-' <;> by_cases hb2 : b2 = '-' <;>
    simp [stepColumn, getCigarType, hb1, hb2, initState, SpanInv, pendMI, pendMD,
      runSumMI, runSumMD, pushRun] <;>
    (try split_ifs) <;>
    simp_all

set_option maxRecDepth 8192 in
set_option maxHeartbeats 4000000 in
/-- A non-first iteration on a column that is not a double gap preserves the
span invariant. -/
theorem stepColumn_span (st : LoopState) (b1 b2 : Char)
    (hgap : ¬(b1 = '-' ∧ b2 = '-')) (h : SpanInv st) :
    SpanInv (stepColumn false st b1 b2) := by
  obtain ⟨hT, hF⟩ := h
  by_cases hb1 : b1 = '-' <;> by_cases hb2 : b2 = '-'
  · exact absurd ⟨hb1, hb2⟩ hgap
  all_goals
    cases hst : st.alignmentStarted <;> cases hcur : st.currentCigarType <;>
    by_cases hbb : b1 = b2 <;>
    (try simp_all [stepColumn, getCigarType, hb1, hb2, SpanInv, pendMI, pendMD,
      runSumMI_pushRun, runSumMD_pushRun]) <;>
    omega

/-- The whole loop establishes the span invariant when no column is a double
gap. -/
theorem runColumns_span (cols : List (Char × Char))
    (hgap : ∀ c ∈ cols, ¬(c.1 = '-' ∧ c.2 = '-')) : SpanInv (runColumns cols) := by
  cases cols with
  | nil =>
    constructor
    · intro hst; exact absurd hst (by simp [runColumns, initState])
    · intro _; exact ⟨rfl, rfl, Or.inr rfl⟩
  | cons c rest =>
    have main : ∀ (cs : List (Char × Char)) (st : LoopState),
        (∀ x ∈ cs, ¬(x.1 = '-' ∧ x.2 = '-')) → SpanInv st →
        SpanInv (cs.foldl (fun s p => stepColumn false s p.1 p.2) st) := by
      intro cs
      induction cs with
      | nil => intro st _ hst; exact hst
      | cons x xs ih =>
        intro st hmem hst
        simp only [List.foldl_cons]
        exact ih _ (fun y hy => hmem y (by simp [hy]))
          (stepColumn_span st x.1 x.2 (hmem x (by simp)) hst)
    simp only [runColumns]
    exact main rest _ (fun y hy => hgap y (by simp [hy])) (stepColumn_span_first c.1 c.2)

/-- C4 counterexample: on the never-started aligned pair `"A-"` over `"-A"`
the result is a full record with a leading-clip CIGAR `"S1"` and sentinel
starts, so the M+I run sum (0) differs from `s1End - s1Start` (2). -/
theorem c4_counterexample :
    (semiGlobalAlign [⟨0, 0, 1, 1⟩] 1 "A-" "-A").map
        (fun r => (runSumMI r.cigarRuns, r.s1End - r.s1Start)) = some (0, 2) ∧
    (0 : Int) ≠ 2 := by
  rw [semiGlobalAlign_unit_chain "A-" "-A" (by decide)]
  exact ⟨by decide, by decide⟩

/-- C4 (amended): provided no column is a double gap and at least one column
has bases on both sides (so the alignment starts), the sum of the emitted
M and Insertion run lengths equals `s1End - s1Start`, and the sum of the
emitted M and Deletion run lengths equals `s2End - s2Start`. -/
theorem c4_cigar_reconstructs_lengths (a1 a2 : String)
    (hgap : ∀ c ∈ columnsOf a1 a2, ¬(c.1 = '-' ∧ c.2 = '-'))
    (hstart : ∃ c ∈ columnsOf a1 a2, c.1 ≠ '-' ∧ c.2 ≠ '-') :
    runSumMI (buildAlignmentRecord a1 a2).cigarRuns =
      (buildAlignmentRecord a1 a2).s1End - (buildAlignmentRecord a1 a2).s1Start ∧
    runSumMD (buildAlignmentRecord a1 a2).cigarRuns =
      (buildAlignmentRecord a1 a2).s2End - (buildAlignmentRecord a1 a2).s2Start := by
  obtain ⟨hT, _⟩ := runColumns_span (columnsOf a1 a2) hgap
  obtain ⟨e1, e2, e3⟩ := hT (runColumns_started (columnsOf a1 a2) hstart)
  have hb : buildAlignmentRecord a1 a2 = finalize (runColumns (columnsOf a1 a2)) := rfl
  set st := runColumns (columnsOf a1 a2) with hstdef
  have hcig : (finalize st).cigarRuns =
      pushRun st.cigarRuns
        (if st.currentCigarType = INSERTION then CLIP
          else if st.currentCigarType = DELETION then NOTHING else st.currentCigarType)
        st.currentCigarLength := rfl
  have hs1e : (finalize st).s1End =
      (if st.currentCigarType = INSERTION then st.s1Bases - st.currentCigarLength
        else st.s1Bases) := rfl
  have hs2e : (finalize st).s2End =
      (if st.currentCigarType = DELETION then st.s2Bases - st.currentCigarLength
        else st.s2Bases) := rfl
  have hs1s : (finalize st).s1Start = st.s1Start := rfl
  have hs2s : (finalize st).s2Start = st.s2Start := rfl
  rw [hb, hcig, hs1e, hs2e, hs1s, hs2s]
  rcases e3 with hM | hI | hD
  · simp only [pendMI, pendMD, hM] at e1 e2
    simp [hM, runSumMI_pushRun, runSumMD_pushRun] at e1 e2 ⊢ <;> omega
  · simp only [pendMI, pendMD, hI] at e1 e2
    simp [hI, runSumMI_pushRun, runSumMD_pushRun] at e1 e2 ⊢ <;> omega
  · simp only [pendMI, pendMD, hD] at e1 e2
    simp [hD, runSumMI_pushRun, runSumMD_pushRun] at e1 e2 ⊢ <;> omega

/-- C4 witness: an ordinary fully-aligned pair. -/
theorem c4_witness :
    runSumMI (buildAlignmentRecord "AG" "AT").cigarRuns =
      (buildAlignmentRecord "AG" "AT").s1End - (buildAlignmentRecord "AG" "AT").s1Start ∧
    runSumMD (buildAlignmentRecord "AG" "AT").cigarRuns =
      (buildAlignmentRecord "AG" "AT").s2End - (buildAlignmentRecord "AG" "AT").s2Start :=
  c4_cigar_reconstructs_lengths "AG" "AT" (by decide) (by decide)

end SeqanAlign
